import Mathlib

/-!
Shallow embedding of the conversation-store logic of the LegalAI chat page
(src/src/pages/ChatPage.tsx).  The component state relevant to conversation
management is modelled as an explicit record, browser localStorage under the
single key legal-compass-conversations is modelled as an optional snapshot of
the serialized conversations array (JSON serialization of the records below is
faithful, so the snapshot holds the structured value directly), and the React
state setters together with the persistence useEffect are modelled as explicit
state-passing functions.  Timestamps (Date.now()) are passed explicitly as Nat
arguments.  JS string slice(0, 40) and the length test are modelled with
String.take and String.length.
-/

namespace LegalAI

/-- Role of a chat message: the literal union of the source Message interface. -/
inductive Role where
  | user
  | assistant
deriving DecidableEq

/-- Judgment record from the source: title and summary. -/
structure Judgment where
  title : String
  summary : String
deriving DecidableEq

/-- Arguments enrichment: lists for and against (field renamed, keyword). -/
structure Arguments where
  for_ : List String
  against : List String
deriving DecidableEq

/-- Neutral-analysis enrichment: factors and interpretations. -/
structure NeutralAnalysis where
  factors : List String
  interpretations : List String
deriving DecidableEq

/-- Citation record as consumed by the page (source, section, text). -/
structure Citation where
  source : String
  section_ : String
  text : String
deriving DecidableEq

/-- Message from the source interface: role, content, optional enrichment. -/
structure Message where
  role : Role
  content : String
  judgments : Option (List Judgment) := none
  arguments : Option Arguments := none
  neutral_analysis : Option NeutralAnalysis := none
  citations : Option (List Citation) := none
deriving DecidableEq

/-- Conversation record as stored in the conversations state array. -/
structure Conversation where
  id : String
  title : String
  messages : List Message
  timestamp : Nat
deriving DecidableEq

/-- The component state relevant to conversation management: the working
message list, the input field, the conversations array and the active id. -/
structure ChatState where
  messages : List Message
  input : String
  conversations : List Conversation
  activeConversationId : Option String
deriving DecidableEq

/-- The localStorage slot for the key legal-compass-conversations: none when
the key is absent, some l when it holds the serialization of l. -/
abbrev Storage := Option (List Conversation)

/-- Initial component state on mount: all useState initializers. -/
def initialState : ChatState :=
  { messages := [], input := "", conversations := [], activeConversationId := none }

/-- createNewChat: clears messages, active id and input. -/
def createNewChat (s : ChatState) : ChatState :=
  { s with messages := [], activeConversationId := none, input := "" }

/-- switchConversation: looks the id up in conversations; when found, sets the
active id and replaces the working messages; otherwise nothing happens. -/
def switchConversation (s : ChatState) (convId : String) : ChatState :=
  match s.conversations.find? (fun c => c.id == convId) with
  | some conv => { s with activeConversationId := some conv.id, messages := conv.messages }
  | none => s

/-- deleteConversation: filters the id out of conversations and, when the
deleted conversation was active, resets the session via createNewChat. -/
def deleteConversation (s : ChatState) (convId : String) : ChatState :=
  let s1 := { s with conversations := s.conversations.filter (fun c => c.id != convId) }
  if s.activeConversationId = some convId then createNewChat s1 else s1

/-- Title derivation from the first message content: slice(0, 40) plus an
ellipsis marker exactly when the content is longer than 40. -/
def deriveTitle (content : String) : String :=
  content.take 40 ++ (if content.length > 40 then "..." else "")

/-- saveCurrentConversation: early return on an empty list; with an active id,
map-update the matching conversation in place; otherwise mint conv_<timestamp>,
set it active and cons the new conversation onto the front. -/
def saveCurrentConversation (s : ChatState) (updatedMessages : List Message) (timestamp : Nat) : ChatState :=
  match updatedMessages with
  | [] => s
  | m0 :: _ =>
    let title := deriveTitle m0.content
    match s.activeConversationId with
    | some aid =>
      { s with conversations := s.conversations.map fun c =>
          if c.id = aid then { c with messages := updatedMessages, timestamp := timestamp } else c }
    | none =>
      let newId := "conv_" ++ toString timestamp
      { s with activeConversationId := some newId,
               conversations :=
                 { id := newId, title := title, messages := updatedMessages, timestamp := timestamp }
                   :: s.conversations }

/-- The persistence useEffect on the conversations dependency: it writes the
full snapshot only when the list is non-empty, and leaves storage untouched
when the list is empty. -/
def persistConversationsEffect (convs : List Conversation) (storage : Storage) : Storage :=
  if convs.isEmpty then storage else some convs

/-- The load useEffect on mount: when the key is present the parsed array
replaces conversations, the active id is reset to none and the working
messages are cleared; when absent nothing happens. -/
def loadConversationsEffect (s : ChatState) (storage : Storage) : ChatState :=
  match storage with
  | some parsed => { s with conversations := parsed, activeConversationId := none, messages := [] }
  | none => s

/-- saveCurrentConversation together with the persistence effect that its
setConversations call triggers; the empty early return triggers no effect. -/
def saveCurrentConversationFull (s : ChatState) (storage : Storage)
    (updatedMessages : List Message) (timestamp : Nat) : ChatState × Storage :=
  match updatedMessages with
  | [] => (s, storage)
  | _ :: _ =>
    let s' := saveCurrentConversation s updatedMessages timestamp
    (s', persistConversationsEffect s'.conversations storage)

/-- deleteConversation together with the persistence effect triggered by its
unconditional setConversations call. -/
def deleteConversationFull (s : ChatState) (storage : Storage) (convId : String) :
    ChatState × Storage :=
  let s' := deleteConversation s convId
  (s', persistConversationsEffect s'.conversations storage)

/-- Parsed JSON body of a Query Service response as read by handleSend. -/
structure QueryData where
  answer : Option String := none
  related_judgments : Option (List Judgment) := none
  arguments : Option Arguments := none
  neutral_analysis : Option NeutralAnalysis := none
  citations : Option (List Citation) := none
deriving DecidableEq

/-- Outcome of the fetch to the Query Service: a parsed body, or a thrown
transport error caught by the surrounding try block. -/
inductive FetchOutcome where
  | ok (data : QueryData)
  | err
deriving DecidableEq

/-- JS truthiness of data.answer: present and not the empty string. -/
def answerTruthy : Option String → Bool
  | some a => a != ""
  | none => false

/-- Fixed fallback assistant content when the response lacks an answer. -/
def fallbackNoAnswer : String := "Sorry, I couldn\x27t process that request."

/-- Fixed fallback assistant content when the fetch throws. -/
def fallbackNetworkError : String :=
  "Error connecting to the server. Please ensure the backend is running."

/-- The user message appended by handleSend. -/
def mkUserMessage (text : String) : Message := { role := .user, content := text }

/-- Executable embedding of the JS trim on the input text: whitespace is
stripped from both ends (String.trim of the core library is equivalent on
these characters but does not reduce in the kernel). -/
def jsTrim (s : String) : String :=
  ⟨((s.data.dropWhile Char.isWhitespace).reverse.dropWhile Char.isWhitespace).reverse⟩

/-- handleSend modelled as one logical operation: blank input returns early
with no request issued; otherwise the user message and one assistant message
(real answer, no-answer fallback, or network fallback) are appended and the
result is saved.  The returned Bool records whether a request was issued. -/
def handleSend (s : ChatState) (storage : Storage) (text : String)
    (outcome : FetchOutcome) (timestamp : Nat) : ChatState × Storage × Bool :=
  if jsTrim text = "" then (s, storage, false)
  else
    let userMsg := mkUserMessage text
    let newMessages :=
      match outcome with
      | .ok data =>
        if answerTruthy data.answer then
          s.messages ++ [userMsg,
            { role := .assistant, content := data.answer.getD "",
              judgments := data.related_judgments, arguments := data.arguments,
              neutral_analysis := data.neutral_analysis, citations := data.citations }]
        else
          s.messages ++ [userMsg, { role := .assistant, content := fallbackNoAnswer }]
      | .err =>
        s.messages ++ [userMsg, { role := .assistant, content := fallbackNetworkError }]
    let s1 := { s with input := "", messages := newMessages }
    let (s2, storage') := saveCurrentConversationFull s1 storage newMessages timestamp
    (s2, storage', true)

/-- Ids of the conversations in a list. -/
def convIds (convs : List Conversation) : List String := convs.map (fun c => c.id)

/-- Uniqueness half of the store invariant: no two conversations share an id. -/
def uniqueIds (convs : List Conversation) : Prop := (convIds convs).Nodup

/-- Reference half of the store invariant: a non-null active id names an
existing conversation. -/
def activeRefValid (s : ChatState) : Prop :=
  match s.activeConversationId with
  | none => True
  | some aid => aid ∈ convIds s.conversations

/-- The store invariant of the spec. -/
def StoreWF (s : ChatState) : Prop := uniqueIds s.conversations ∧ activeRefValid s

instance : DecidablePred uniqueIds := fun convs =>
  inferInstanceAs (Decidable ((convIds convs).Nodup))

instance : DecidablePred activeRefValid := fun s => by
  unfold activeRefValid
  exact match s.activeConversationId with
    | none => inferInstanceAs (Decidable True)
    | some aid => inferInstanceAs (Decidable (aid ∈ convIds s.conversations))

instance : DecidablePred StoreWF := fun s =>
  inferInstanceAs (Decidable (uniqueIds s.conversations ∧ activeRefValid s))

/-! Helper lemmas shared by the claim theorems. -/

/-- The in-place update map of saveCurrentConversation does not change ids. -/
theorem convIds_map_update (convs : List Conversation) (aid : String)
    (msgs : List Message) (ts : Nat) :
    convIds (convs.map fun c =>
      if c.id = aid then { c with messages := msgs, timestamp := ts } else c)
      = convIds convs := by
  induction convs with
  | nil => rfl
  | cons c rest ih =>
    simp only [convIds, List.map_cons] at ih ⊢
    by_cases h : c.id = aid <;> simp [h, ih]

/-- Membership in convIds comes from a conversation with that id. -/
theorem exists_conv_of_mem_convIds {convs : List Conversation} {aid : String}
    (h : aid ∈ convIds convs) : ∃ c, c ∈ convs ∧ c.id = aid := by
  unfold convIds at h
  exact List.mem_map.mp h

/-- A conversation id never survives the filter that deletes it. -/
theorem not_mem_convIds_filter (convs : List Conversation) (x : String) :
    x ∉ convIds (convs.filter fun c => c.id != x) := by
  intro h
  obtain ⟨c, hc, hid⟩ := exists_conv_of_mem_convIds h
  have hne := (List.mem_filter.mp hc).2
  rw [bne_iff_ne] at hne
  exact hne hid

/-- The persistence effect writes the full snapshot for a non-empty list. -/
theorem persist_of_mem {convs : List Conversation} {c : Conversation}
    (hc : c ∈ convs) (storage : Storage) :
    persistConversationsEffect convs storage = some convs := by
  cases convs with
  | nil => cases hc
  | cons a l => rfl

/-- Claim C4: saving an empty message list changes neither the component state
nor persistent storage; no storage write is triggered. -/
theorem C4_empty_save_noop (s : ChatState) (storage : Storage) (ts : Nat) :
    saveCurrentConversationFull s storage [] ts = (s, storage) := rfl

/-- Claim C10: handleSend on input that trims to the empty string leaves the
whole state and storage unchanged and issues no network request. -/
theorem C10_blank_send_noop (s : ChatState) (storage : Storage) (text : String)
    (outcome : FetchOutcome) (ts : Nat) (h : jsTrim text = "") :
    handleSend s storage text outcome ts = (s, storage, false) := by
  unfold handleSend
  rw [if_pos h]

/-- Witness for C10 at a concrete whitespace input. -/
theorem C10_blank_send_noop_witness :
    handleSend initialState none "   " FetchOutcome.err 0 = (initialState, none, false) :=
  C10_blank_send_noop initialState none "   " FetchOutcome.err 0 (by decide)

/-- Claim C5: saving a non-empty list as a new conversation stores as title
the first 40 characters of the first message content, with the ellipsis marker
appended exactly when the content is longer than 40 characters; content of at
most 40 characters is stored unchanged. -/
theorem C5_title_derivation (s : ChatState) (m : Message) (rest : List Message)
    (ts : Nat) (h : s.activeConversationId = none) :
    ∃ c, (saveCurrentConversation s (m :: rest) ts).conversations.head? = some c ∧
      c.title = m.content.take 40 ++ (if m.content.length > 40 then "..." else "") ∧
      (m.content.length ≤ 40 → c.title = m.content) := by
  unfold saveCurrentConversation
  rw [h]
  refine ⟨_, rfl, rfl, ?_⟩
  intro hle
  unfold deriveTitle
  rw [if_neg (by omega)]
  rw [String.take_eq, List.take_of_length_le hle]
  exact String.append_empty m.content

/-- Witness for C5 at contents of 50 and of 30 characters. -/
theorem C5_title_derivation_witness :
    (∃ c, (saveCurrentConversation initialState
        [mkUserMessage (String.mk (List.replicate 50 'a'))] 7).conversations.head? = some c ∧
      c.title = (String.mk (List.replicate 50 'a')).take 40 ++
        (if (String.mk (List.replicate 50 'a')).length > 40 then "..." else "") ∧
      ((String.mk (List.replicate 50 'a')).length ≤ 40 →
        c.title = String.mk (List.replicate 50 'a'))) ∧
    (∃ c, (saveCurrentConversation initialState
        [mkUserMessage (String.mk (List.replicate 30 'b'))] 8).conversations.head? = some c ∧
      c.title = (String.mk (List.replicate 30 'b')).take 40 ++
        (if (String.mk (List.replicate 30 'b')).length > 40 then "..." else "") ∧
      ((String.mk (List.replicate 30 'b')).length ≤ 40 →
        c.title = String.mk (List.replicate 30 'b'))) :=
  ⟨C5_title_derivation initialState (mkUserMessage (String.mk (List.replicate 50 'a'))) [] 7 rfl,
   C5_title_derivation initialState (mkUserMessage (String.mk (List.replicate 30 'b'))) [] 8 rfl⟩

/-- Claim C6: a non-empty save with no active id conses a new conversation
with id conv_<timestamp> onto the front and makes it active; saving A as new,
starting a new chat, then saving B as new yields the list B, A in front of the
previous list with the record of A unchanged. -/
theorem C6_new_conversation_ordering (s : ChatState) (mA mB : Message)
    (restA restB : List Message) (tsA tsB : Nat)
    (h : s.activeConversationId = none) :
    (saveCurrentConversation s (mA :: restA) tsA).conversations =
      { id := "conv_" ++ toString tsA, title := deriveTitle mA.content,
        messages := mA :: restA, timestamp := tsA } :: s.conversations ∧
    (saveCurrentConversation s (mA :: restA) tsA).activeConversationId =
      some ("conv_" ++ toString tsA) ∧
    (saveCurrentConversation
        (createNewChat (saveCurrentConversation s (mA :: restA) tsA))
        (mB :: restB) tsB).conversations =
      { id := "conv_" ++ toString tsB, title := deriveTitle mB.content,
        messages := mB :: restB, timestamp := tsB } ::
      { id := "conv_" ++ toString tsA, title := deriveTitle mA.content,
        messages := mA :: restA, timestamp := tsA } :: s.conversations ∧
    (saveCurrentConversation
        (createNewChat (saveCurrentConversation s (mA :: restA) tsA))
        (mB :: restB) tsB).activeConversationId =
      some ("conv_" ++ toString tsB) := by
  unfold saveCurrentConversation createNewChat
  rw [h]
  exact ⟨rfl, rfl, rfl, rfl⟩

/-- Witness for C6 on concrete one-message conversations. -/
theorem C6_new_conversation_ordering_witness :
    (saveCurrentConversation initialState [mkUserMessage "first"] 1).conversations =
      { id := "conv_" ++ toString 1, title := deriveTitle (mkUserMessage "first").content,
        messages := [mkUserMessage "first"], timestamp := 1 } :: initialState.conversations ∧
    (saveCurrentConversation initialState [mkUserMessage "first"] 1).activeConversationId =
      some ("conv_" ++ toString 1) ∧
    (saveCurrentConversation
        (createNewChat (saveCurrentConversation initialState [mkUserMessage "first"] 1))
        [mkUserMessage "second"] 2).conversations =
      { id := "conv_" ++ toString 2, title := deriveTitle (mkUserMessage "second").content,
        messages := [mkUserMessage "second"], timestamp := 2 } ::
      { id := "conv_" ++ toString 1, title := deriveTitle (mkUserMessage "first").content,
        messages := [mkUserMessage "first"], timestamp := 1 } :: initialState.conversations ∧
    (saveCurrentConversation
        (createNewChat (saveCurrentConversation initialState [mkUserMessage "first"] 1))
        [mkUserMessage "second"] 2).activeConversationId =
      some ("conv_" ++ toString 2) :=
  C6_new_conversation_ordering initialState (mkUserMessage "first") (mkUserMessage "second")
    [] [] 1 2 rfl

/-- Claim C8: deleting the active conversation resets the active id to none,
clears the working message list, and removes the id from the store. -/
theorem C8_delete_active_resets (s : ChatState) (x : String)
    (hactive : s.activeConversationId = some x)
    (_hmem : x ∈ convIds s.conversations) :
    (deleteConversation s x).activeConversationId = none ∧
    (deleteConversation s x).messages = [] ∧
    x ∉ convIds (deleteConversation s x).conversations := by
  unfold deleteConversation
  rw [if_pos hactive]
  exact ⟨rfl, rfl, not_mem_convIds_filter s.conversations x⟩

/-- Witness for C8 on a store holding the single active conversation conv_3. -/
theorem C8_delete_active_resets_witness :
    (deleteConversation (saveCurrentConversation initialState [mkUserMessage "hi"] 3)
        "conv_3").activeConversationId = none ∧
    (deleteConversation (saveCurrentConversation initialState [mkUserMessage "hi"] 3)
        "conv_3").messages = [] ∧
    "conv_3" ∉ convIds (deleteConversation
        (saveCurrentConversation initialState [mkUserMessage "hi"] 3) "conv_3").conversations :=
  C8_delete_active_resets (saveCurrentConversation initialState [mkUserMessage "hi"] 3)
    "conv_3" (by decide) (by decide)

/-- A non-empty save with active id aid is exactly the in-place map update. -/
theorem save_update_eq (s : ChatState) (aid : String) (m0 : Message)
    (rest : List Message) (ts : Nat)
    (hactive : s.activeConversationId = some aid) :
    saveCurrentConversation s (m0 :: rest) ts =
      { s with conversations := s.conversations.map fun c =>
          if c.id = aid then { c with messages := m0 :: rest, timestamp := ts } else c } := by
  unfold saveCurrentConversation
  rw [hactive]

/-- Claim C7: with a non-null active id naming an existing conversation, two
consecutive saves of the identical non-empty message list keep the length of
the conversations list and the ids, titles, messages, order and the
timestamps of all non-updated records unchanged between the two calls; the
list after the second call equals the list after the first with only the
matching record receiving the new timestamp. -/
theorem C7_idempotent_resave (s : ChatState) (aid : String) (m0 : Message)
    (rest : List Message) (ts1 ts2 : Nat)
    (hactive : s.activeConversationId = some aid)
    (_hmem : aid ∈ convIds s.conversations) :
    (saveCurrentConversation (saveCurrentConversation s (m0 :: rest) ts1)
        (m0 :: rest) ts2).conversations.length =
      (saveCurrentConversation s (m0 :: rest) ts1).conversations.length ∧
    (saveCurrentConversation (saveCurrentConversation s (m0 :: rest) ts1)
        (m0 :: rest) ts2).activeConversationId =
      (saveCurrentConversation s (m0 :: rest) ts1).activeConversationId ∧
    (saveCurrentConversation (saveCurrentConversation s (m0 :: rest) ts1)
        (m0 :: rest) ts2).conversations =
      (saveCurrentConversation s (m0 :: rest) ts1).conversations.map
        (fun c => if c.id = aid then { c with timestamp := ts2 } else c) := by
  have h1 := save_update_eq s aid m0 rest ts1 hactive
  have hactive2 : (saveCurrentConversation s (m0 :: rest) ts1).activeConversationId = some aid := by
    rw [h1]
    exact hactive
  have h2 := save_update_eq (saveCurrentConversation s (m0 :: rest) ts1) aid m0 rest ts2 hactive2
  rw [h2]
  refine ⟨by simp, rfl, ?_⟩
  show (saveCurrentConversation s (m0 :: rest) ts1).conversations.map (fun c =>
      if c.id = aid then { c with messages := m0 :: rest, timestamp := ts2 } else c) =
    (saveCurrentConversation s (m0 :: rest) ts1).conversations.map
      (fun c => if c.id = aid then { c with timestamp := ts2 } else c)
  rw [h1]
  show (s.conversations.map (fun c =>
      if c.id = aid then { c with messages := m0 :: rest, timestamp := ts1 } else c)).map (fun c =>
      if c.id = aid then { c with messages := m0 :: rest, timestamp := ts2 } else c) =
    (s.conversations.map (fun c =>
      if c.id = aid then { c with messages := m0 :: rest, timestamp := ts1 } else c)).map
      (fun c => if c.id = aid then { c with timestamp := ts2 } else c)
  rw [List.map_map, List.map_map]
  apply List.map_congr_left
  intro c _
  by_cases h : c.id = aid <;> simp [h]

/-- Witness for C7 on a one-conversation store re-saved twice. -/
theorem C7_idempotent_resave_witness :
    (saveCurrentConversation
        (saveCurrentConversation (saveCurrentConversation initialState [mkUserMessage "q"] 4)
          [mkUserMessage "q"] 5)
        [mkUserMessage "q"] 6).conversations.length =
      (saveCurrentConversation (saveCurrentConversation initialState [mkUserMessage "q"] 4)
        [mkUserMessage "q"] 5).conversations.length ∧
    (saveCurrentConversation
        (saveCurrentConversation (saveCurrentConversation initialState [mkUserMessage "q"] 4)
          [mkUserMessage "q"] 5)
        [mkUserMessage "q"] 6).activeConversationId =
      (saveCurrentConversation (saveCurrentConversation initialState [mkUserMessage "q"] 4)
        [mkUserMessage "q"] 5).activeConversationId ∧
    (saveCurrentConversation
        (saveCurrentConversation (saveCurrentConversation initialState [mkUserMessage "q"] 4)
          [mkUserMessage "q"] 5)
        [mkUserMessage "q"] 6).conversations =
      (saveCurrentConversation (saveCurrentConversation initialState [mkUserMessage "q"] 4)
        [mkUserMessage "q"] 5).conversations.map
        (fun c => if c.id = "conv_4" then { c with timestamp := 6 } else c) :=
  C7_idempotent_resave (saveCurrentConversation initialState [mkUserMessage "q"] 4)
    "conv_4" (mkUserMessage "q") [] 5 6 (by decide) (by decide)

/-- A non-empty save leaves the working messages and input untouched, stores a
conversation holding exactly the saved list, and flushes the snapshot. -/
theorem saveFull_saves (s : ChatState) (storage : Storage) (m0 : Message)
    (rest : List Message) (ts : Nat) (hwf : activeRefValid s) :
    (saveCurrentConversationFull s storage (m0 :: rest) ts).1.messages = s.messages ∧
    (saveCurrentConversationFull s storage (m0 :: rest) ts).1.input = s.input ∧
    (∃ c, c ∈ (saveCurrentConversationFull s storage (m0 :: rest) ts).1.conversations ∧
      c.messages = m0 :: rest) ∧
    (saveCurrentConversationFull s storage (m0 :: rest) ts).2 =
      some (saveCurrentConversationFull s storage (m0 :: rest) ts).1.conversations := by
  unfold saveCurrentConversationFull saveCurrentConversation
  cases hact : s.activeConversationId with
  | none =>
    refine ⟨rfl, rfl, ⟨_, List.mem_cons_self .., rfl⟩, ?_⟩
    exact persist_of_mem (List.mem_cons_self ..) storage
  | some aid =>
    unfold activeRefValid at hwf
    rw [hact] at hwf
    obtain ⟨c0, hc0, hid⟩ := exists_conv_of_mem_convIds hwf
    have hupd : (fun c => if c.id = aid then
        { c with messages := m0 :: rest, timestamp := ts } else c) c0 =
        { c0 with messages := m0 :: rest, timestamp := ts } := by simp [hid]
    have hmem1 : { c0 with messages := m0 :: rest, timestamp := ts } ∈
        s.conversations.map (fun c => if c.id = aid then
          { c with messages := m0 :: rest, timestamp := ts } else c) := by
      rw [← hupd]
      exact List.mem_map_of_mem _ hc0
    exact ⟨rfl, rfl, ⟨_, hmem1, rfl⟩, persist_of_mem hmem1 storage⟩

/-- Claim C1: saving a session whose messages are u1, a1 and re-initializing a
fresh mount from the persisted snapshot yields a conversation whose stored
messages are exactly u1, a1, order and content preserved. -/
theorem C1_round_trip (s : ChatState) (storage : Storage) (u1 a1 : Message)
    (ts : Nat) (hwf : activeRefValid s) :
    ∃ c, c ∈ (loadConversationsEffect initialState
        (saveCurrentConversationFull s storage [u1, a1] ts).2).conversations ∧
      c.messages = [u1, a1] := by
  obtain ⟨-, -, ⟨c, hc, hmsgs⟩, hst⟩ := saveFull_saves s storage u1 [a1] ts hwf
  rw [hst]
  exact ⟨c, hc, hmsgs⟩

/-- Witness for C1 with a concrete user and assistant message pair. -/
theorem C1_round_trip_witness :
    ∃ c, c ∈ (loadConversationsEffect initialState
        (saveCurrentConversationFull initialState none
          [mkUserMessage "hi", { role := Role.assistant, content := "yes" }] 9).2).conversations ∧
      c.messages = [mkUserMessage "hi", { role := Role.assistant, content := "yes" }] :=
  C1_round_trip initialState none (mkUserMessage "hi")
    { role := Role.assistant, content := "yes" } 9 (by decide)

/-- Claim C9: when the parsed response has no truthy answer field, handleSend
appends exactly one fixed fallback assistant message after the user message,
returns normally, stores a conversation holding the resulting list, and
flushes the snapshot. -/
theorem C9_no_answer_fallback (s : ChatState) (storage : Storage) (text : String)
    (data : QueryData) (ts : Nat)
    (htext : ¬ jsTrim text = "")
    (hans : answerTruthy data.answer = false)
    (hwf : activeRefValid s) :
    (handleSend s storage text (FetchOutcome.ok data) ts).1.messages =
      s.messages ++ [mkUserMessage text,
        { role := Role.assistant, content := fallbackNoAnswer }] ∧
    (∃ c, c ∈ (handleSend s storage text (FetchOutcome.ok data) ts).1.conversations ∧
      c.messages = (handleSend s storage text (FetchOutcome.ok data) ts).1.messages) ∧
    (handleSend s storage text (FetchOutcome.ok data) ts).2.1 =
      some (handleSend s storage text (FetchOutcome.ok data) ts).1.conversations := by
  unfold handleSend
  rw [if_neg htext]
  simp only [hans, Bool.false_eq_true, if_false]
  cases hm : s.messages with
  | nil =>
    have key := saveFull_saves
      { s with input := "", messages := [mkUserMessage text,
          { role := Role.assistant, content := fallbackNoAnswer }] } storage
      (mkUserMessage text) [{ role := Role.assistant, content := fallbackNoAnswer }] ts hwf
    simp only [hm, List.nil_append] at key ⊢
    refine ⟨key.1, ?_, key.2.2.2⟩
    rw [key.1]
    exact key.2.2.1
  | cons a l =>
    have key := saveFull_saves
      { s with input := "", messages := a :: (l ++ [mkUserMessage text,
          { role := Role.assistant, content := fallbackNoAnswer }]) } storage
      a (l ++ [mkUserMessage text,
          { role := Role.assistant, content := fallbackNoAnswer }]) ts hwf
    simp only [hm, List.cons_append] at key ⊢
    refine ⟨key.1, ?_, key.2.2.2⟩
    rw [key.1]
    exact key.2.2.1

/-- Witness for C9 on a response body that lacks the answer field. -/
theorem C9_no_answer_fallback_witness :
    (handleSend initialState none "hello" (FetchOutcome.ok {}) 11).1.messages =
      initialState.messages ++ [mkUserMessage "hello",
        { role := Role.assistant, content := fallbackNoAnswer }] ∧
    (∃ c, c ∈ (handleSend initialState none "hello" (FetchOutcome.ok {}) 11).1.conversations ∧
      c.messages = (handleSend initialState none "hello" (FetchOutcome.ok {}) 11).1.messages) ∧
    (handleSend initialState none "hello" (FetchOutcome.ok {}) 11).2.1 =
      some (handleSend initialState none "hello" (FetchOutcome.ok {}) 11).1.conversations :=
  C9_no_answer_fallback initialState none "hello" {} 11 (by decide) rfl (by decide)

/-- One user-visible store operation of the chat page. -/
inductive StoreStep where
  | save (msgs : List Message) (ts : Nat)
  | switch (convId : String)
  | delete (convId : String)
  | newChat
deriving DecidableEq

/-- Interpretation of one store operation on the component state. -/
def applyStep (s : ChatState) : StoreStep → ChatState
  | .save msgs ts => saveCurrentConversation s msgs ts
  | .switch cid => switchConversation s cid
  | .delete cid => deleteConversation s cid
  | .newChat => createNewChat s

/-- Interpretation of a sequence of store operations. -/
def runSteps (s : ChatState) : List StoreStep → ChatState
  | [] => s
  | st :: rest => runSteps (applyStep s st) rest

/-- Freshness side condition of one step: a save that mints a new conversation
uses a timestamp whose derived id is not already in the store. -/
def freshStep (s : ChatState) : StoreStep → Prop
  | .save msgs ts => s.activeConversationId = none → msgs ≠ [] →
      ("conv_" ++ toString ts) ∉ convIds s.conversations
  | _ => True

/-- Freshness of a whole run, checked state by state. -/
def FreshRun : ChatState → List StoreStep → Prop
  | _, [] => True
  | s, st :: rest => freshStep s st ∧ FreshRun (applyStep s st) rest

/-- Filtering conversations preserves id uniqueness. -/
theorem uniqueIds_filter {convs : List Conversation} (p : Conversation → Bool)
    (h : uniqueIds convs) : uniqueIds (convs.filter p) := by
  unfold uniqueIds convIds at h ⊢
  exact h.sublist ((List.filter_sublist convs).map fun c => c.id)

/-- A surviving id stays in convIds after deleting a different id. -/
theorem mem_convIds_filter_of_ne {convs : List Conversation} {aid cid : String}
    (hne : aid ≠ cid) (hmem : aid ∈ convIds convs) :
    aid ∈ convIds (convs.filter fun c => c.id != cid) := by
  obtain ⟨c, hc, hid⟩ := exists_conv_of_mem_convIds hmem
  have hmem2 : c ∈ convs.filter (fun c => c.id != cid) := by
    rw [List.mem_filter]
    refine ⟨hc, ?_⟩
    rw [bne_iff_ne, hid]
    exact hne
  rw [← hid]
  exact List.mem_map_of_mem _ hmem2

/-- Introduction rule for activeRefValid. -/
theorem activeRefValid_intro (s : ChatState)
    (h : ∀ aid, s.activeConversationId = some aid → aid ∈ convIds s.conversations) :
    activeRefValid s := by
  unfold activeRefValid
  cases hact : s.activeConversationId with
  | none => trivial
  | some aid => exact h aid hact

/-- createNewChat preserves the store invariant. -/
theorem storeWF_createNewChat {s : ChatState} (h : StoreWF s) :
    StoreWF (createNewChat s) := ⟨h.1, trivial⟩

/-- switchConversation preserves the store invariant. -/
theorem storeWF_switch {s : ChatState} (cid : String) (h : StoreWF s) :
    StoreWF (switchConversation s cid) := by
  obtain ⟨h1, h2⟩ := h
  unfold switchConversation
  cases hf : s.conversations.find? (fun c => c.id == cid) with
  | none => exact ⟨h1, h2⟩
  | some conv =>
    refine ⟨h1, ?_⟩
    have hmem := List.mem_of_find?_eq_some hf
    exact List.mem_map_of_mem _ hmem

/-- deleteConversation preserves the store invariant. -/
theorem storeWF_delete {s : ChatState} (cid : String) (h : StoreWF s) :
    StoreWF (deleteConversation s cid) := by
  obtain ⟨h1, h2⟩ := h
  unfold deleteConversation
  by_cases hc : s.activeConversationId = some cid
  · rw [if_pos hc]
    exact ⟨uniqueIds_filter _ h1, trivial⟩
  · rw [if_neg hc]
    refine ⟨uniqueIds_filter _ h1, ?_⟩
    unfold activeRefValid at h2 ⊢
    cases hact : s.activeConversationId with
    | none => trivial
    | some aid =>
      rw [hact] at h2
      have hne : aid ≠ cid := by
        intro heq
        rw [heq] at hact
        exact hc hact
      exact mem_convIds_filter_of_ne hne h2

/-- saveCurrentConversation preserves the store invariant when any freshly
minted id is new to the store. -/
theorem storeWF_save {s : ChatState} {msgs : List Message} {ts : Nat}
    (h : StoreWF s)
    (hfresh : s.activeConversationId = none → msgs ≠ [] →
      ("conv_" ++ toString ts) ∉ convIds s.conversations) :
    StoreWF (saveCurrentConversation s msgs ts) := by
  obtain ⟨h1, h2⟩ := h
  match msgs, hfresh with
  | [], _ => exact ⟨h1, h2⟩
  | m0 :: rest, hfresh =>
    cases hact : s.activeConversationId with
    | some aid =>
      have hs : saveCurrentConversation s (m0 :: rest) ts =
          { s with conversations := s.conversations.map fun c =>
              if c.id = aid then { c with messages := m0 :: rest, timestamp := ts } else c } := by
        unfold saveCurrentConversation
        rw [hact]
      rw [hs]
      constructor
      · show uniqueIds (s.conversations.map fun c =>
          if c.id = aid then { c with messages := m0 :: rest, timestamp := ts } else c)
        unfold uniqueIds
        rw [convIds_map_update]
        exact h1
      · unfold activeRefValid at h2
        rw [hact] at h2
        apply activeRefValid_intro
        intro a ha
        have ha2 : s.activeConversationId = some a := ha
        rw [hact] at ha2
        obtain rfl : aid = a := Option.some.inj ha2
        show aid ∈ convIds (s.conversations.map fun c =>
          if c.id = aid then { c with messages := m0 :: rest, timestamp := ts } else c)
        rw [convIds_map_update]
        exact h2
    | none =>
      have hs : saveCurrentConversation s (m0 :: rest) ts =
          { s with activeConversationId := some ("conv_" ++ toString ts),
                   conversations :=
                     { id := "conv_" ++ toString ts, title := deriveTitle m0.content,
                       messages := m0 :: rest, timestamp := ts } :: s.conversations } := by
        unfold saveCurrentConversation
        rw [hact]
      rw [hs]
      constructor
      · show List.Nodup (("conv_" ++ toString ts) :: convIds s.conversations)
        exact List.Nodup.cons (hfresh hact (List.cons_ne_nil m0 rest)) h1
      · show ("conv_" ++ toString ts) ∈ ("conv_" ++ toString ts) :: convIds s.conversations
        exact List.mem_cons_self _ _

/-- One step preserves the store invariant under its freshness condition. -/
theorem storeWF_applyStep {s : ChatState} {st : StoreStep}
    (h : StoreWF s) (hf : freshStep s st) : StoreWF (applyStep s st) := by
  cases st with
  | save msgs ts => exact storeWF_save h hf
  | switch cid => exact storeWF_switch cid h
  | delete cid => exact storeWF_delete cid h
  | newChat => exact storeWF_createNewChat h

/-- A fresh run from a well-formed state ends in a well-formed state. -/
theorem storeWF_runSteps :
    ∀ (steps : List StoreStep) (s : ChatState),
      StoreWF s → FreshRun s steps → StoreWF (runSteps s steps)
  | [], _, h, _ => h
  | _ :: rest, _, h, hf => storeWF_runSteps rest _ (storeWF_applyStep h hf.1) hf.2

/-- Claim C3 (amended): every operation sequence from the initial state whose
new-conversation saves mint ids not already in the store keeps the invariant:
ids are unique and a non-null active id names an existing conversation.  The
unamended claim fails when two new conversations are minted at one timestamp;
see the counterexample. -/
theorem C3_store_invariant (steps : List StoreStep)
    (h : FreshRun initialState steps) : StoreWF (runSteps initialState steps) :=
  storeWF_runSteps steps initialState ⟨List.nodup_nil, trivial⟩ h

/-- Witness for C3 on a concrete fresh three-step run. -/
theorem C3_store_invariant_witness :
    StoreWF (runSteps initialState
      [StoreStep.save [mkUserMessage "hi"] 1, StoreStep.newChat,
       StoreStep.save [mkUserMessage "yo"] 2]) :=
  C3_store_invariant
    [StoreStep.save [mkUserMessage "hi"] 1, StoreStep.newChat,
     StoreStep.save [mkUserMessage "yo"] 2]
    ⟨fun _ _ => by decide, trivial, fun _ _ => by decide, trivial⟩

/-- Counterexample to C3 as stated: two new conversations minted at the same
timestamp 5 produce two store records with the identical id conv_5, so the
uniqueness invariant fails. -/
theorem C3_counterexample :
    ¬ StoreWF (runSteps initialState
      [StoreStep.save [mkUserMessage "hi"] 5, StoreStep.newChat,
       StoreStep.save [mkUserMessage "yo"] 5]) := by
  decide

/-- Store state used for the C2 evaluation: one conversation conv_1, active. -/
def c2Conversation : Conversation :=
  { id := "conv_1", title := "hi", messages := [mkUserMessage "hi"], timestamp := 1 }

/-- Component state holding exactly c2Conversation as the active record. -/
def c2State : ChatState :=
  { messages := [mkUserMessage "hi"], input := "", conversations := [c2Conversation],
    activeConversationId := some "conv_1" }

/-- Claim C2 evaluated at its failing input: deleting the last remaining
conversation empties the in-memory list, but the guarded persistence effect
performs no write, so storage keeps the stale previous snapshot instead of
the new empty list. -/
theorem C2_delete_last_no_write :
    (deleteConversationFull c2State (some [c2Conversation]) "conv_1").1.conversations = [] ∧
    (deleteConversationFull c2State (some [c2Conversation]) "conv_1").2 =
      some [c2Conversation] := by
  constructor <;> rfl

end LegalAI
